import Mathlib

/-!
Verification of the voice-presence maintainer in `src/main.py`.

The program keeps a Discord bot connected to one configured voice channel
(`VC_CHANNEL_ID`) of one configured guild (`GUILD_ID`).  The core is the
coroutine `try_connect_with_backoff`, guarded by a global `asyncio.Lock`
(`voice_lock`) and a set `_connecting_guilds`, driven by three kinds of
triggers: a periodic `ensure_voice_task` loop, the reactive
`on_voice_state_update` event handler, the initial connect scheduled from
`on_ready`, and the owner-only `forcejoin` command.

We embed the code in two complementary ways:

* a pure functional model of one run of `try_connect_with_backoff`
  (`runFrom` / `runSeq`), where the nondeterministic outcomes that the
  Python code observes in each `while` iteration (channel resolution,
  current voice-client state, move/connect results) are supplied as a list
  of `IterEnv` records, and the observable behaviour (result, issued
  move/connect operations, backoff sleeps) is returned;

* a small-step interleaving model (`Sys`, `Step`, `Reachable`) of several
  cooperatively scheduled asyncio tasks all invoking
  `try_connect_with_backoff` for the single configured guild.  Atomic
  steps are the maximal await-free blocks of the Python coroutine; the
  suspension points are `vc.move_to`, `channel.connect`, `asyncio.sleep`,
  and a contended `voice_lock.acquire` (an uncontended
  `asyncio.Lock.acquire` returns on its fast path without yielding to the
  event loop, so the membership test on `_connecting_guilds` at line 90,
  the uncontended acquire at line 94 and the `add` at line 96 form one
  atomic block).

The reactive filter of `on_voice_state_update` is embedded separately as
the pure decision function `on_voice_state_update_action`.
-/

namespace JennaBot

/-! ## Configuration constants (lines 78, 99, 144-147 of `src/main.py`) -/

/-- `base_sleep = 2.0` (line 99); the float values taken are small powers
of two times 2.0 capped at 60.0, all exactly representable, so we model
the delays with `Nat`. -/
def base_sleep : Nat := 2

/-- Default `max_attempts` parameter (line 78). -/
def default_max_attempts : Nat := 8

/-- The backoff sleep computed at lines 145-147 when connect attempt
number `attempt` fails with a non-`ClientException` exception:
`sleep_for = base_sleep * (2 ** (attempt - 1))`, then capped at 60. -/
def backoff_sleep (attempt : Nat) : Nat :=
  let sleep_for := base_sleep * 2 ^ (attempt - 1)
  if sleep_for > 60 then 60 else sleep_for

/-! ## Pure model of one run of `try_connect_with_backoff`

One iteration of the `while True` loop (lines 100-150) observes:
the resolved channel (lines 107-114), the current voice client
(lines 116-124), the outcome of `vc.move_to` when issued (lines 125-130)
and the outcome of `channel.connect` when issued (lines 132-150).
`IterEnv` packages these observations for one iteration. -/

/-- Outcome of `await channel.connect(reconnect=False, timeout=30)`
(line 134): success, a `discord.ClientException` (the `benign` flag
records whether it really is the "Already connected to a voice channel."
condition the comment on line 139 refers to — the code cannot tell), or
any other exception (handled at line 142). -/
inductive ConnectOutcome where
  | ok : ConnectOutcome
  | clientExc (benign : Bool) : ConnectOutcome
  | err : ConnectOutcome
deriving DecidableEq, Repr

/-- What one iteration of the loop observes about the outside world. -/
structure IterEnv where
  /-- The channel the iteration ends up with after lines 107-114:
  `target_channel` when one was passed, else `guild.get_channel(VC_CHANNEL_ID)`;
  `none` models "not found" (line 112). The `Nat` is the channel id. -/
  channel : Option Nat
  /-- `discord.utils.get(bot.voice_clients, guild=guild)` (line 117):
  `none` when no voice client exists, else `(is_connected, channel id)`. -/
  vc : Option (Bool × Nat)
  /-- Whether `await vc.move_to(channel)` (line 127) succeeds, when issued. -/
  moveOk : Bool
  /-- Outcome of `await channel.connect(...)` (line 134), when issued. -/
  connect : ConnectOutcome
deriving DecidableEq, Repr

/-- Requests issued against the external channel client. -/
inductive Op where
  | move (ch : Nat) : Op
  | connect (ch : Nat) : Op
deriving DecidableEq, Repr

/-- How one run of `try_connect_with_backoff` returns. -/
inductive SeqResult where
  /-- Returned at line 104: `attempt > max_attempts`. -/
  | givenUp
  /-- Returned at line 114: resolved channel is `None`. -/
  | notFound
  /-- Returned at line 121 (already in the right channel), 128 (move
  succeeded) or 136 (connect succeeded). -/
  | success
  /-- Returned at line 141: `discord.ClientException` during the attempt,
  logged and treated as a stopping condition. -/
  | clientStop
  /-- The supplied environment list ran out before the run returned
  (the model's fuel; every theorem supplies enough environments). -/
  | ranOut
deriving DecidableEq, Repr

/-- The `while True` loop of lines 100-150, starting at the iteration
whose post-increment counter value (line 101) is `attempt`.  Returns the
result, the list of move/connect operations issued (in order) and the
list of backoff sleeps performed (in order). -/
def runFrom (maxAttempts : Nat) : Nat → List IterEnv → SeqResult × List Op × List Nat
  | attempt, envs =>
    if attempt > maxAttempts then
      -- lines 102-104
      (.givenUp, [], [])
    else
      match envs with
      | [] => (.ranOut, [], [])
      | e :: rest =>
        match e.channel with
        | none =>
          -- lines 112-114: target not found, return
          (.notFound, [], [])
        | some ch =>
          match e.vc with
          | some (true, c) =>
            if c = ch then
              -- lines 119-121: already connected in the right place
              (.success, [], [])
            else if e.moveOk then
              -- lines 124-128: move succeeded
              (.success, [.move ch], [])
            else
              -- lines 129-130: move failed, fall through to connect
              match e.connect with
              | .ok => (.success, [.move ch, .connect ch], [])
              | .clientExc _ => (.clientStop, [.move ch, .connect ch], [])
              | .err =>
                let r := runFrom maxAttempts (attempt + 1) rest
                (r.1, .move ch :: .connect ch :: r.2.1, backoff_sleep attempt :: r.2.2)
          | _ =>
            -- lines 132-136: no live voice client, fresh connect
            match e.connect with
            | .ok => (.success, [.connect ch], [])
            | .clientExc _ => (.clientStop, [.connect ch], [])
            | .err =>
              let r := runFrom maxAttempts (attempt + 1) rest
              (r.1, .connect ch :: r.2.1, backoff_sleep attempt :: r.2.2)

/-- A full run of `try_connect_with_backoff`: `attempt` starts at `0`
(line 98) and is incremented to `1` at the top of the first iteration
(line 101). -/
def runSeq (maxAttempts : Nat) (envs : List IterEnv) : SeqResult × List Op × List Nat :=
  runFrom maxAttempts 1 envs

/-- An iteration environment for a transient connect failure: the channel
resolves, there is no live voice client, and `channel.connect` raises a
non-`ClientException` exception. -/
def failEnv (ch : Nat) : IterEnv :=
  { channel := some ch, vc := none, moveOk := true, connect := .err }

/-! ## Lemmas on the pure model -/

/-- `backoff_sleep` written with `min`. -/
lemma backoff_sleep_eq_min (k : Nat) :
    backoff_sleep k = min (base_sleep * 2 ^ (k - 1)) 60 := by
  simp only [backoff_sleep, base_sleep]
  split <;> omega

/-- `backoff_sleep` is monotone. -/
lemma backoff_sleep_mono {j k : Nat} (h : j ≤ k) :
    backoff_sleep j ≤ backoff_sleep k := by
  have hs : base_sleep * 2 ^ (j - 1) ≤ base_sleep * 2 ^ (k - 1) :=
    Nat.mul_le_mul_left _ (Nat.pow_le_pow_right (by norm_num) (Nat.sub_le_sub_right h 1))
  simp only [backoff_sleep]
  split <;> split <;> omega

/-- The backoff sleeps performed by `runFrom maxA a` are exactly
`backoff_sleep a, backoff_sleep (a+1), ...`: the sleep recorded after the
`k`-th failed attempt of the run is `backoff_sleep` of that attempt
number. -/
lemma runFrom_delays (maxA : Nat) :
    ∀ (envs : List IterEnv) (a : Nat), ∃ m,
      (runFrom maxA a envs).2.2 = (List.range m).map (fun i => backoff_sleep (a + i)) := by
  intro envs
  induction envs with
  | nil =>
    intro a
    refine ⟨0, ?_⟩
    rw [runFrom]
    split <;> simp
  | cons e rest ih =>
    intro a
    rw [runFrom]
    split
    · exact ⟨0, by simp⟩
    · match he : e.channel with
      | none => exact ⟨0, by simp [he]⟩
      | some ch =>
        match hvc : e.vc with
        | some (true, c) =>
          by_cases hc : c = ch
          · exact ⟨0, by simp [he, hvc, hc]⟩
          · by_cases hm : e.moveOk
            · exact ⟨0, by simp [he, hvc, hc, hm]⟩
            · match hcon : e.connect with
              | .ok => exact ⟨0, by simp [he, hvc, hc, hm, hcon]⟩
              | .clientExc b => exact ⟨0, by simp [he, hvc, hc, hm, hcon]⟩
              | .err =>
                obtain ⟨m, hrest⟩ := ih (a + 1)
                refine ⟨m + 1, ?_⟩
                simp only [he, hvc, hc, hm, hcon, if_neg, ite_false, Bool.false_eq_true]
                rw [List.range_succ_eq_map, List.map_cons, List.map_map]
                simp only [hrest, List.map_map]
                refine congrArg₂ List.cons (by simp) ?_
                exact List.map_congr_left (fun i _ => by
                  simp only [Function.comp_apply]
                  congr 1
                  omega)
        | some (false, c) =>
          match hcon : e.connect with
          | .ok => exact ⟨0, by simp [he, hvc, hcon]⟩
          | .clientExc b => exact ⟨0, by simp [he, hvc, hcon]⟩
          | .err =>
            obtain ⟨m, hrest⟩ := ih (a + 1)
            refine ⟨m + 1, ?_⟩
            simp only [he, hvc, hcon]
            rw [List.range_succ_eq_map, List.map_cons, List.map_map]
            simp only [hrest, List.map_map]
            refine congrArg₂ List.cons (by simp) ?_
            exact List.map_congr_left (fun i _ => by
              simp only [Function.comp_apply]
              congr 1
              omega)
        | none =>
          match hcon : e.connect with
          | .ok => exact ⟨0, by simp [he, hvc, hcon]⟩
          | .clientExc b => exact ⟨0, by simp [he, hvc, hcon]⟩
          | .err =>
            obtain ⟨m, hrest⟩ := ih (a + 1)
            refine ⟨m + 1, ?_⟩
            simp only [he, hvc, hcon]
            rw [List.range_succ_eq_map, List.map_cons, List.map_map]
            simp only [hrest, List.map_map]
            refine congrArg₂ List.cons (by simp) ?_
            exact List.map_congr_left (fun i _ => by
              simp only [Function.comp_apply]
              congr 1
              omega)

/-- Past the ceiling, `runFrom` gives up at once whatever the
environments are (lines 102-104). -/
lemma runFrom_gt_max (maxA attempt : Nat) (envs : List IterEnv)
    (h : maxA < attempt) : runFrom maxA attempt envs = (.givenUp, [], []) := by
  cases envs with
  | nil => rw [runFrom, if_pos (by omega)]
  | cons e rest => rw [runFrom, if_pos (by omega)]

/-- Auxiliary for C4: starting at attempt `a` with `k` transient failures
remaining before the ceiling (`a + k = maxAttempts + 1`), the run fails
`k` more times, issues exactly `k` connect requests, sleeps the backoff
of each failed attempt, and gives up — regardless of any further
environments `rest`. -/
lemma runFrom_replicate_fail (maxA ch : Nat) (rest : List IterEnv) :
    ∀ (k a : Nat), a + k = maxA + 1 →
      runFrom maxA a (List.replicate k (failEnv ch) ++ rest)
        = (.givenUp, List.replicate k (.connect ch),
            (List.range k).map (fun i => backoff_sleep (a + i))) := by
  intro k
  induction k with
  | zero =>
    intro a ha
    rw [runFrom_gt_max maxA a _ (by omega)]
    simp
  | succ n ihn =>
    intro a ha
    rw [List.replicate_succ, List.cons_append, runFrom, if_neg (by omega)]
    have hrec := ihn (a + 1) (by omega)
    simp only [failEnv] at hrec ⊢
    rw [hrec]
    refine congrArg₂ Prod.mk rfl (congrArg₂ Prod.mk ?_ ?_)
    · simp [List.replicate_succ]
    · rw [List.range_succ_eq_map, List.map_cons, List.map_map]
      refine congrArg₂ List.cons (by simp) ?_
      exact (List.map_congr_left (fun i _ => by
        simp only [Function.comp_apply]
        congr 1
        omega)).symm

/-! ## Claim theorems on the pure model -/

/-- C3: within one attempt sequence, the backoff delay slept after the
`k`-th failed attempt equals `min (base_sleep * 2 ^ (k - 1)) 60`
(base 2s, cap 60s); the delay is monotonically non-decreasing in `k`; and
in any run the `k`-th recorded sleep (counting from starting attempt `a`)
is `backoff_sleep (a + k - 1)`, so a run started at attempt 1 sleeps
`backoff_sleep 1, backoff_sleep 2, ...` after its successive failures.
Concretely, six consecutive transient failures sleep 2, 4, 8, 16, 32, 60
seconds in that order. -/
theorem c3_backoff_schedule :
    (∀ k, 1 ≤ k → backoff_sleep k = min (base_sleep * 2 ^ (k - 1)) 60)
    ∧ (∀ j k, 1 ≤ j → j ≤ k → backoff_sleep j ≤ backoff_sleep k)
    ∧ (∀ maxA a envs, ∃ m,
        (runFrom maxA a envs).2.2 = (List.range m).map (fun i => backoff_sleep (a + i)))
    ∧ (runSeq 6 (List.replicate 6 (failEnv 5))).2.2 = [2, 4, 8, 16, 32, 60] := by
  refine ⟨fun k _ => backoff_sleep_eq_min k,
    fun j k _ h => backoff_sleep_mono h,
    fun maxA a envs => runFrom_delays maxA envs a, by decide⟩

/-- Witness for C3 at `k = 6`: the sixth delay has hit the 60-second cap. -/
theorem c3_backoff_schedule_witness :
    backoff_sleep 6 = min (base_sleep * 2 ^ (6 - 1)) 60 :=
  c3_backoff_schedule.1 6 (by norm_num)

/-- C4: after `maxAttempts` consecutive transient failures the sequence
gives up: exactly `maxAttempts` connect requests are issued no matter
what further environments follow, and the result is `givenUp`.  Every
later triggered sequence runs `runSeq`, which starts from attempt 1
(`attempt` is a fresh local initialised to 0 at line 98 and incremented
to 1 at line 101), so its first backoff after a transient failure is the
base delay again. -/
theorem c4_give_up_and_reset (maxA ch : Nat) (rest rest' : List IterEnv)
    (h : 1 ≤ maxA) :
    runSeq maxA (List.replicate maxA (failEnv ch) ++ rest)
      = (.givenUp, List.replicate maxA (.connect ch),
          (List.range maxA).map (fun i => backoff_sleep (1 + i)))
    ∧ (∀ envs, runSeq maxA envs = runFrom maxA 1 envs)
    ∧ (runSeq maxA (failEnv ch :: rest')).2.2.head? = some base_sleep := by
  refine ⟨runFrom_replicate_fail maxA ch rest maxA 1 (by omega),
    fun _ => rfl, ?_⟩
  rw [runSeq, runFrom, if_neg (by omega)]
  simp only [failEnv]
  rfl

/-- Witness for C4 with `maxAttempts = 3`, channel id 5. -/
theorem c4_give_up_and_reset_witness :
    runSeq 3 (List.replicate 3 (failEnv 5) ++ [])
      = (.givenUp, List.replicate 3 (.connect 5),
          (List.range 3).map (fun i => backoff_sleep (1 + i))) :=
  (c4_give_up_and_reset 3 5 [] [] (by norm_num)).1

/-- C5: whenever the iteration's channel resolution fails (line 112 finds
`None`), the run returns immediately with `notFound`: no connect or move
is issued, no backoff sleep is scheduled, the loop does not continue (so
the attempt counter is not advanced past this iteration), and no
automatic retry occurs — the remaining environments `rest` are never
consulted. -/
theorem c5_not_found (maxA a : Nat) (e : IterEnv) (rest : List IterEnv)
    (ha : a ≤ maxA) (he : e.channel = none) :
    runFrom maxA a (e :: rest) = (.notFound, [], []) := by
  rw [runFrom, if_neg (by omega)]
  simp [he]

/-- Witness for C5: a first-iteration resolution failure. -/
theorem c5_not_found_witness :
    runFrom 8 1 ({ channel := none, vc := none, moveOk := true,
                   connect := .ok } :: [failEnv 5]) = (.notFound, [], []) :=
  c5_not_found 8 1 _ [failEnv 5] (by norm_num) rfl

/-- C7: when the voice client is live but in a channel `c ≠ ch`: if the
move succeeds, the run ends successfully having issued exactly one
operation, the move (no connect); if the move fails, the same iteration
falls through to connect, so the operation list starts with the move
followed immediately by a connect. -/
theorem c7_move_wrong_channel (maxA a ch c : Nat) (e : IterEnv)
    (rest : List IterEnv) (ha : a ≤ maxA) (he : e.channel = some ch)
    (hvc : e.vc = some (true, c)) (hc : c ≠ ch) :
    (e.moveOk = true → runFrom maxA a (e :: rest) = (.success, [.move ch], []))
    ∧ (e.moveOk = false →
        ∃ tail, (runFrom maxA a (e :: rest)).2.1 = .move ch :: .connect ch :: tail) := by
  constructor
  · intro hm
    rw [runFrom, if_neg (by omega)]
    simp [he, hvc, hc, hm]
  · intro hm
    rw [runFrom, if_neg (by omega)]
    match hcon : e.connect with
    | .ok => exact ⟨[], by simp [he, hvc, hc, hm, hcon]⟩
    | .clientExc b => exact ⟨[], by simp [he, hvc, hc, hm, hcon]⟩
    | .err =>
      exact ⟨(runFrom maxA (a + 1) rest).2.1, by simp [he, hvc, hc, hm, hcon]⟩

/-- Witness for C7: live client in channel 7, target 5, move succeeds. -/
theorem c7_move_wrong_channel_witness :
    runFrom 8 1 [{ channel := some 5, vc := some (true, 7), moveOk := true,
                   connect := .ok }] = (.success, [.move 5], []) :=
  (c7_move_wrong_channel 8 1 5 7 _ [] (by norm_num) rfl rfl (by norm_num)).1 rfl

/-- C9: when the fresh connect raises the benign "already connected"
`ClientException` (line 138), the run logs and returns at line 141: the
sequence ends with the single connect request it issued, schedules no
backoff sleep, applies no attempt penalty (the loop never reaches the
next iteration), and returns normally — the exception is swallowed, so
the process does not terminate. -/
theorem c9_benign_client_exception (maxA a ch : Nat) (e : IterEnv)
    (rest : List IterEnv) (ha : a ≤ maxA) (he : e.channel = some ch)
    (hvc : e.vc = none) (hcon : e.connect = .clientExc true) :
    runFrom maxA a (e :: rest) = (.clientStop, [.connect ch], []) := by
  rw [runFrom, if_neg (by omega)]
  simp [he, hvc, hcon]

/-- Witness for C9: benign already-connected on the first attempt. -/
theorem c9_benign_client_exception_witness :
    runFrom 8 1 [{ channel := some 5, vc := none, moveOk := true,
                   connect := .clientExc true }] = (.clientStop, [.connect 5], []) :=
  c9_benign_client_exception 8 1 5 _ [] (by norm_num) rfl rfl rfl

/-- C10: every `discord.ClientException` raised by `channel.connect` —
whether or not it really denotes the "already connected" condition
(`b` arbitrary) — is caught at line 138 and ends the run immediately:
the result is `clientStop` and no backoff sleep is ever scheduled, so no
`ClientException` is ever classified as a transient failure to be
retried.  The hypothesis `hvc` states only that the connect call is
reached (the client is not already live in the target channel, and a live
wrong-channel client fails its move). -/
theorem c10_any_client_exception_stops (maxA a ch : Nat) (b : Bool)
    (e : IterEnv) (rest : List IterEnv) (ha : a ≤ maxA)
    (he : e.channel = some ch) (hcon : e.connect = .clientExc b)
    (hvc : ∀ conn, e.vc = some (true, conn) → conn ≠ ch ∧ e.moveOk = false) :
    (runFrom maxA a (e :: rest)).1 = .clientStop
    ∧ (runFrom maxA a (e :: rest)).2.2 = [] := by
  rw [runFrom, if_neg (by omega)]
  match hv : e.vc with
  | none => simp [he, hv, hcon]
  | some (false, c) => simp [he, hv, hcon]
  | some (true, c) =>
    obtain ⟨hne, hm⟩ := hvc c hv
    simp [he, hv, hne, hm, hcon]

/-- Witness for C10: a non-benign `ClientException` after a failed move
away from channel 7 still stops the sequence with no backoff. -/
theorem c10_any_client_exception_stops_witness :
    (runFrom 8 1 [{ channel := some 5, vc := some (true, 7), moveOk := false,
                    connect := .clientExc false }]).1 = SeqResult.clientStop
    ∧ (runFrom 8 1 [{ channel := some 5, vc := some (true, 7), moveOk := false,
                      connect := .clientExc false }]).2.2 = [] :=
  c10_any_client_exception_stops 8 1 5 false _ [] (by norm_num) rfl rfl
    (fun conn hconn => by
      refine ⟨?_, rfl⟩
      cases hconn
      norm_num)

/-! ## Reactive trigger filter (`on_voice_state_update`, lines 216-242) -/

/-- What the handler decides to do: nothing, or schedule a reconnect
attempt after a debounce sleep of the given number of seconds. -/
inductive VSAction where
  | ignore : VSAction
  | reconnect (debounce : Nat) : VSAction
deriving DecidableEq, Repr

/-- The decision taken by `on_voice_state_update(member, before, after)`:
line 223 filters out members other than the bot itself; lines 227-233
handle a genuine loss (`before.channel is not None and after.channel is
None`) with a 10-second debounce; lines 235-240 handle the bot sitting in
a non-target channel (`after.channel is not None and after.channel.id !=
VC_CHANNEL_ID`) with a 2-second debounce; everything else is ignored.
`before` and `after` are the channel ids of the before/after voice
states (`none` = not in a voice channel). -/
def on_voice_state_update_action (botId memberId targetCh : Nat)
    (before after : Option Nat) : VSAction :=
  if memberId ≠ botId then .ignore
  else if before ≠ none ∧ after = none then .reconnect 10
  else if after ≠ none ∧ after ≠ some targetCh then .reconnect 2
  else .ignore

/-- C8: a notification whose after-state channel is present and equal to
the configured target never triggers a reconnect; a notification for a
member other than the bot never triggers one; when a reconnect is
triggered, the notification was for the bot itself and was either a
genuine loss (was in a channel, now in none, debounced 10s) or left the
bot sitting in a wrong channel (debounced 2s); and the debounce delay is
always positive. -/
theorem c8_reactive_filter (botId memberId targetCh : Nat)
    (before after : Option Nat) :
    (after = some targetCh →
      on_voice_state_update_action botId memberId targetCh before after = .ignore)
    ∧ (memberId ≠ botId →
      on_voice_state_update_action botId memberId targetCh before after = .ignore)
    ∧ (∀ d, on_voice_state_update_action botId memberId targetCh before after
          = .reconnect d →
        memberId = botId
        ∧ ((before ≠ none ∧ after = none ∧ d = 10)
            ∨ (after ≠ none ∧ after ≠ some targetCh ∧ d = 2))
        ∧ 0 < d) := by
  refine ⟨?_, ?_, ?_⟩
  · intro hafter
    simp only [on_voice_state_update_action]
    split_ifs with h1 h2 h3
    · rfl
    · exact absurd h2.2 (by simp [hafter])
    · exact absurd h3.2 (by simp [hafter])
    · rfl
  · intro hne
    simp [on_voice_state_update_action, hne]
  · intro d hd
    simp only [on_voice_state_update_action] at hd
    split_ifs at hd with h1 h2 h3
    · refine ⟨by tauto, Or.inl ⟨h2.1, h2.2, ?_⟩, ?_⟩ <;>
        cases hd <;> norm_num
    · refine ⟨by tauto, Or.inr ⟨h3.1, h3.2, ?_⟩, ?_⟩ <;>
        cases hd <;> norm_num

/-- Witness for C8: the bot (id 1) connecting to the configured target
channel 5 from nowhere is ignored. -/
theorem c8_reactive_filter_witness :
    on_voice_state_update_action 1 1 5 none (some 5) = .ignore :=
  (c8_reactive_filter 1 1 5 none (some 5)).1 rfl

/-! ## Interleaving model of concurrent triggers

Each task models one invocation of `try_connect_with_backoff(guild)` for
the single configured guild, created by any of the triggers (periodic
`ensure_voice_task` tick, debounced `on_voice_state_update` reaction,
the initial connect from `on_ready`, the `forcejoin` command).  asyncio
schedules tasks cooperatively: a task runs without interruption until it
reaches an `await` that actually suspends.  The suspension points of
`try_connect_with_backoff` are `vc.move_to` (line 127), `channel.connect`
(line 134), `asyncio.sleep` (line 149), and `voice_lock.acquire`
(line 94) when the lock is contended; an uncontended
`asyncio.Lock.acquire` returns on its fast path without yielding, so the
membership test on `_connecting_guilds` (line 90), an uncontended acquire
(line 94) and the `add` (line 96) execute as one atomic block. -/

/-- How one task's invocation ended. -/
inductive Res where
  /-- Returned at line 92: an attempt was already in progress. -/
  | skipped
  /-- Returned at line 121, 128 or 136. -/
  | success
  /-- Returned at line 114. -/
  | notFound
  /-- Returned at line 104. -/
  | givenUp
  /-- Returned at line 141. -/
  | clientStop
  /-- The task was cancelled or an exception escaped an `await`; the
  `finally` at line 151 and the `async with` exit still ran. -/
  | aborted
deriving DecidableEq, Repr

/-- The `await` at which a task inside the guarded section is suspended,
together with the current value of the `attempt` counter. -/
inductive BodyState where
  /-- Suspended in `await vc.move_to(channel)` (line 127). -/
  | moving (attempt : Nat)
  /-- Suspended in `await channel.connect(...)` (line 134). -/
  | connecting (attempt : Nat)
  /-- Suspended in `await asyncio.sleep(sleep_for)` (line 149). -/
  | sleeping (attempt : Nat)
deriving DecidableEq, Repr

/-- A task's control point. -/
inductive TaskPC where
  /-- Created but not yet scheduled (about to run lines 88-96). -/
  | idle
  /-- Suspended in `voice_lock.acquire()` (line 94) behind a holder. -/
  | waiting
  /-- Inside the guarded section, suspended at an `await`. -/
  | body (bs : BodyState)
  /-- Returned. -/
  | done (r : Res)
deriving DecidableEq, Repr

/-- Global state for `n` tasks: the holder of `voice_lock` (line 70), the
single-guild content of `_connecting_guilds` (line 72), and each task's
control point. -/
structure Sys (n : Nat) where
  lock : Option (Fin n)
  connecting : Bool
  tasks : Fin n → TaskPC

/-- Initial state: lock free, `_connecting_guilds` empty, every task
newly created. -/
def initSys (n : Nat) : Sys n :=
  { lock := none, connecting := false, tasks := fun _ => .idle }

/-- State after task `t` leaves the guarded section with result `r`: the
`finally` at lines 151-152 removes the guild id from
`_connecting_guilds`, and the `async with` exit releases `voice_lock`;
both happen in the same atomic block as the `return`. -/
def exitSucc {n : Nat} (s : Sys n) (t : Fin n) (r : Res) : Sys n :=
  { lock := none, connecting := false,
    tasks := Function.update s.tasks t (.done r) }

/-- Environment outcome of the synchronous prefix of one loop iteration
(lines 100-134, up to the first suspending `await`). -/
inductive IterOut where
  /-- Channel resolution found `None` (line 112). -/
  | notFound
  /-- Voice client live in the target channel already (line 119). -/
  | alreadyRight
  /-- Voice client live elsewhere: `await vc.move_to` is issued (line 127). -/
  | wrongTarget
  /-- No live voice client: `await channel.connect` is issued (line 134). -/
  | needConnect
deriving DecidableEq, Repr

/-- State after task `t`, holding the lock with the guild marked
connecting, runs the synchronous prefix of the iteration with counter
value `a`: either it returns (releasing the guard) or it suspends at the
move/connect `await`. -/
def iterSucc {n : Nat} (s : Sys n) (t : Fin n) (a : Nat) : IterOut → Sys n
  | .notFound => exitSucc s t .notFound
  | .alreadyRight => exitSucc s t .success
  | .wrongTarget =>
    { lock := some t, connecting := true,
      tasks := Function.update s.tasks t (.body (.moving a)) }
  | .needConnect =>
    { lock := some t, connecting := true,
      tasks := Function.update s.tasks t (.body (.connecting a)) }

/-- One atomic scheduling step performed by task `t`. -/
inductive Step (maxA : Nat) {n : Nat} (t : Fin n) : Sys n → Sys n → Prop where
  /-- Lines 88-92: the guild is in `_connecting_guilds`, so the task
  returns at once without touching the lock. -/
  | entry_skip (s : Sys n) (h : s.tasks t = .idle) (hc : s.connecting = true) :
      Step maxA t s { s with tasks := Function.update s.tasks t (.done .skipped) }
  /-- Lines 88-134: guild not marked, lock free — the fast-path acquire
  does not suspend, so the check, the acquire, the `add` and the first
  iteration prefix are one atomic block. -/
  | entry_run (s : Sys n) (o : IterOut) (h : s.tasks t = .idle)
      (hc : s.connecting = false) (hl : s.lock = none) :
      Step maxA t s (iterSucc s t 1 o)
  /-- Lines 88-94: guild not marked but the lock is held — the task
  suspends inside `voice_lock.acquire()`.  (Unreachable here: the lock is
  only ever held with the guild marked; kept for faithfulness.) -/
  | entry_wait (s : Sys n) (u : Fin n) (h : s.tasks t = .idle)
      (hc : s.connecting = false) (hl : s.lock = some u) :
      Step maxA t s { s with tasks := Function.update s.tasks t .waiting }
  /-- A suspended acquirer is handed the freed lock and runs lines
  96-134. -/
  | wait_acquire (s : Sys n) (o : IterOut) (h : s.tasks t = .waiting)
      (hl : s.lock = none) :
      Step maxA t s (iterSucc s t 1 o)
  /-- `await vc.move_to` succeeded: return at line 128. -/
  | move_ok (s : Sys n) (a : Nat) (h : s.tasks t = .body (.moving a)) :
      Step maxA t s (exitSucc s t .success)
  /-- `await vc.move_to` raised: lines 129-130 log and fall through to
  the connect `await` of the same iteration (line 134). -/
  | move_fail (s : Sys n) (a : Nat) (h : s.tasks t = .body (.moving a)) :
      Step maxA t s { s with tasks := Function.update s.tasks t (.body (.connecting a)) }
  /-- `await channel.connect` succeeded: return at line 136. -/
  | connect_ok (s : Sys n) (a : Nat) (h : s.tasks t = .body (.connecting a)) :
      Step maxA t s (exitSucc s t .success)
  /-- `await channel.connect` raised `discord.ClientException`: return at
  line 141. -/
  | connect_client (s : Sys n) (a : Nat) (h : s.tasks t = .body (.connecting a)) :
      Step maxA t s (exitSucc s t .clientStop)
  /-- `await channel.connect` raised another exception: lines 142-149
  compute the backoff and suspend in `asyncio.sleep`. -/
  | connect_err (s : Sys n) (a : Nat) (h : s.tasks t = .body (.connecting a)) :
      Step maxA t s { s with tasks := Function.update s.tasks t (.body (.sleeping a)) }
  /-- The sleep ends, the loop increments `attempt` past the ceiling:
  return at line 104, still in one atomic block. -/
  | wake_giveup (s : Sys n) (a : Nat) (h : s.tasks t = .body (.sleeping a))
      (hmax : maxA < a + 1) :
      Step maxA t s (exitSucc s t .givenUp)
  /-- The sleep ends, the loop runs the next iteration's synchronous
  prefix with the incremented counter. -/
  | wake_retry (s : Sys n) (a : Nat) (o : IterOut) (h : s.tasks t = .body (.sleeping a))
      (hmax : a + 1 ≤ maxA) :
      Step maxA t s (iterSucc s t (a + 1) o)
  /-- Cancellation or an escaping exception is delivered at a suspension
  point inside the guarded section: the `finally` (line 151) and the
  `async with` exit still run before the task ends. -/
  | abort (s : Sys n) (bs : BodyState) (h : s.tasks t = .body bs) :
      Step maxA t s (exitSucc s t .aborted)

/-- Some task takes a step. -/
def GStep (maxA n : Nat) : Sys n → Sys n → Prop :=
  fun s s' => ∃ t : Fin n, Step maxA t s s'

/-- States reachable from the initial state under any interleaving. -/
def Reachable (maxA n : Nat) (s : Sys n) : Prop :=
  Relation.ReflTransGen (GStep maxA n) (initSys n) s

/-- The inductive invariant: no task is ever parked on the lock; the lock
is held exactly when the guild is marked connecting, and then its holder
is suspended inside the guarded section; and every task inside the
guarded section is the lock holder. -/
def Inv {n : Nat} (s : Sys n) : Prop :=
  (∀ u : Fin n, s.tasks u ≠ .waiting)
  ∧ (∀ u : Fin n, s.lock = some u → s.connecting = true ∧ ∃ bs, s.tasks u = .body bs)
  ∧ (s.lock = none → s.connecting = false)
  ∧ (∀ (u : Fin n) (bs : BodyState), s.tasks u = .body bs → s.lock = some u)

/-- Leaving the guarded section preserves the invariant, provided the
leaving task was the only one inside it. -/
lemma inv_exitSucc {n : Nat} {s : Sys n} {t : Fin n} (r : Res) (hinv : Inv s)
    (honly : ∀ (u : Fin n) (bs : BodyState), s.tasks u = .body bs → u = t) :
    Inv (exitSucc s t r) := by
  obtain ⟨h1, h2, h3, h4⟩ := hinv
  refine ⟨?_, ?_, ?_, ?_⟩
  · intro u
    by_cases hu : u = t
    · subst hu
      simp [exitSucc, Function.update_same]
    · simp only [exitSucc, Function.update_noteq hu]
      exact h1 u
  · intro u hlock
    simp [exitSucc] at hlock
  · intro _
    rfl
  · intro u bs hb
    by_cases hu : u = t
    · subst hu
      simp [exitSucc, Function.update_same] at hb
    · simp only [exitSucc, Function.update_noteq hu] at hb
      exact absurd (honly u bs hb) hu

/-- Running an iteration prefix preserves the invariant, provided the
running task is the only one that could be inside the guarded section. -/
lemma inv_iterSucc {n : Nat} {s : Sys n} {t : Fin n} {a : Nat} (o : IterOut)
    (hinv : Inv s)
    (honly : ∀ (u : Fin n) (bs : BodyState), s.tasks u = .body bs → u = t) :
    Inv (iterSucc s t a o) := by
  obtain ⟨h1, h2, h3, h4⟩ := hinv
  cases o with
  | notFound => exact inv_exitSucc .notFound ⟨h1, h2, h3, h4⟩ honly
  | alreadyRight => exact inv_exitSucc .success ⟨h1, h2, h3, h4⟩ honly
  | wrongTarget =>
    refine ⟨?_, ?_, ?_, ?_⟩
    · intro u
      by_cases hu : u = t
      · subst hu
        simp [iterSucc, Function.update_same]
      · simp only [iterSucc, Function.update_noteq hu]
        exact h1 u
    · intro u hlock
      simp only [iterSucc] at hlock ⊢
      obtain rfl : t = u := Option.some.inj hlock
      simp [Function.update_same]
    · intro hlock
      simp [iterSucc] at hlock
    · intro u bs hb
      by_cases hu : u = t
      · subst hu
        simp [iterSucc]
      · simp only [iterSucc, Function.update_noteq hu] at hb
        exact absurd (honly u bs hb) hu
  | needConnect =>
    refine ⟨?_, ?_, ?_, ?_⟩
    · intro u
      by_cases hu : u = t
      · subst hu
        simp [iterSucc, Function.update_same]
      · simp only [iterSucc, Function.update_noteq hu]
        exact h1 u
    · intro u hlock
      simp only [iterSucc] at hlock ⊢
      obtain rfl : t = u := Option.some.inj hlock
      simp [Function.update_same]
    · intro hlock
      simp [iterSucc] at hlock
    · intro u bs hb
      by_cases hu : u = t
      · subst hu
        simp [iterSucc]
      · simp only [iterSucc, Function.update_noteq hu] at hb
        exact absurd (honly u bs hb) hu

/-- Every step preserves the invariant. -/
lemma inv_step {maxA n : Nat} {t : Fin n} {s s' : Sys n}
    (hinv : Inv s) (hstep : Step maxA t s s') : Inv s' := by
  obtain ⟨h1, h2, h3, h4⟩ := hinv
  cases hstep with
  | entry_skip h hc =>
    refine ⟨?_, ?_, ?_, ?_⟩
    · intro u
      by_cases hu : u = t
      · subst hu
        simp [Function.update_same]
      · simp only [Function.update_noteq hu]
        exact h1 u
    · intro u hlock
      obtain ⟨hconn, bs, hb⟩ := h2 u hlock
      have hu : u ≠ t := by
        intro e
        subst e
        rw [h] at hb
        cases hb
      exact ⟨hconn, bs, by simp only [Function.update_noteq hu]; exact hb⟩
    · exact h3
    · intro u bs hb
      by_cases hu : u = t
      · subst hu
        simp only [Function.update_same] at hb
        cases hb
      · simp only [Function.update_noteq hu] at hb
        exact h4 u bs hb
  | entry_run o h hc hl =>
    refine inv_iterSucc o ⟨h1, h2, h3, h4⟩ ?_
    intro u bs hb
    have := h4 u bs hb
    rw [hl] at this
    cases this
  | entry_wait u h hc hl =>
    have := (h2 u hl).1
    rw [hc] at this
    cases this
  | wait_acquire o h hl =>
    exact absurd h (h1 t)
  | move_ok a h =>
    refine inv_exitSucc .success ⟨h1, h2, h3, h4⟩ ?_
    intro u bs hb
    have hu := h4 u bs hb
    rw [h4 _ _ h] at hu
    exact (Option.some.inj hu).symm
  | move_fail a h =>
    refine ⟨?_, ?_, ?_, ?_⟩
    · intro u
      by_cases hu : u = t
      · subst hu
        simp [Function.update_same]
      · simp only [Function.update_noteq hu]
        exact h1 u
    · intro u hlock
      obtain ⟨hconn, bs, hb⟩ := h2 u hlock
      refine ⟨hconn, ?_⟩
      by_cases hu : u = t
      · subst hu
        exact ⟨.connecting a, by simp [Function.update_same]⟩
      · exact ⟨bs, by simp only [Function.update_noteq hu]; exact hb⟩
    · exact h3
    · intro u bs hb
      by_cases hu : u = t
      · subst hu
        exact h4 _ _ h
      · simp only [Function.update_noteq hu] at hb
        exact h4 u bs hb
  | connect_ok a h =>
    refine inv_exitSucc .success ⟨h1, h2, h3, h4⟩ ?_
    intro u bs hb
    have hu := h4 u bs hb
    rw [h4 _ _ h] at hu
    exact (Option.some.inj hu).symm
  | connect_client a h =>
    refine inv_exitSucc .clientStop ⟨h1, h2, h3, h4⟩ ?_
    intro u bs hb
    have hu := h4 u bs hb
    rw [h4 _ _ h] at hu
    exact (Option.some.inj hu).symm
  | connect_err a h =>
    refine ⟨?_, ?_, ?_, ?_⟩
    · intro u
      by_cases hu : u = t
      · subst hu
        simp [Function.update_same]
      · simp only [Function.update_noteq hu]
        exact h1 u
    · intro u hlock
      obtain ⟨hconn, bs, hb⟩ := h2 u hlock
      refine ⟨hconn, ?_⟩
      by_cases hu : u = t
      · subst hu
        exact ⟨.sleeping a, by simp [Function.update_same]⟩
      · exact ⟨bs, by simp only [Function.update_noteq hu]; exact hb⟩
    · exact h3
    · intro u bs hb
      by_cases hu : u = t
      · subst hu
        exact h4 _ _ h
      · simp only [Function.update_noteq hu] at hb
        exact h4 u bs hb
  | wake_giveup a h hmax =>
    refine inv_exitSucc .givenUp ⟨h1, h2, h3, h4⟩ ?_
    intro u bs hb
    have hu := h4 u bs hb
    rw [h4 _ _ h] at hu
    exact (Option.some.inj hu).symm
  | wake_retry a o h hmax =>
    refine inv_iterSucc o ⟨h1, h2, h3, h4⟩ ?_
    intro u bs hb
    have hu := h4 u bs hb
    rw [h4 _ _ h] at hu
    exact (Option.some.inj hu).symm
  | abort bs h =>
    refine inv_exitSucc .aborted ⟨h1, h2, h3, h4⟩ ?_
    intro u bs0 hb
    have hu := h4 u bs0 hb
    rw [h4 _ _ h] at hu
    exact (Option.some.inj hu).symm

/-- The invariant holds in every reachable state. -/
lemma inv_reachable {maxA n : Nat} {s : Sys n} (h : Reachable maxA n s) :
    Inv s := by
  induction h with
  | refl =>
    exact ⟨fun u => by simp [initSys], fun u hl => by simp [initSys] at hl,
      fun _ => rfl, fun u bs hb => by simp [initSys] at hb⟩
  | tail _ hstep ih =>
    obtain ⟨t, hstep⟩ := hstep
    exact inv_step ih hstep

/-- Tasks other than the stepping one are untouched by an exit. -/
lemma exitSucc_tasks_ne {n : Nat} (s : Sys n) (t : Fin n) (r : Res)
    (u : Fin n) (hu : u ≠ t) : (exitSucc s t r).tasks u = s.tasks u := by
  simp [exitSucc, Function.update_noteq hu]

/-- Tasks other than the stepping one are untouched by an iteration
prefix. -/
lemma iterSucc_tasks_ne {n : Nat} (s : Sys n) (t : Fin n) (a : Nat)
    (o : IterOut) (u : Fin n) (hu : u ≠ t) :
    (iterSucc s t a o).tasks u = s.tasks u := by
  cases o <;> simp [iterSucc, exitSucc, Function.update_noteq hu]

/-! ## Claim theorems on the interleaving model -/

/-- C1: in every state reachable under any interleaving of triggers, at
most one task is inside the guarded section — i.e. at most one attempt
sequence is in progress, and hence at most one move/connect operation (a
`body` suspension at the move or connect `await`) is in flight against
the external client at any instant. -/
theorem c1_single_attempt_in_flight (maxA n : Nat) (s : Sys n)
    (h : Reachable maxA n s) (t₁ t₂ : Fin n) (b₁ b₂ : BodyState)
    (h₁ : s.tasks t₁ = .body b₁) (h₂ : s.tasks t₂ = .body b₂) : t₁ = t₂ := by
  obtain ⟨-, -, -, h4⟩ := inv_reachable h
  have e₂ := h4 t₂ b₂ h₂
  rw [h4 t₁ b₁ h₁] at e₂
  exact Option.some.inj e₂

/-- A two-task demonstration state: task 0 ran its entry block, acquired
the guard and is suspended in its first connect `await`; task 1 has not
run yet. -/
def demoSys : Sys 2 := iterSucc (initSys 2) 0 1 .needConnect

/-- Witness for C1: in the reachable state `demoSys`, the task inside the
guarded section is unique. -/
theorem c1_single_attempt_in_flight_witness : (0 : Fin 2) = 0 :=
  c1_single_attempt_in_flight 8 2 demoSys
    (Relation.ReflTransGen.single
      ⟨0, Step.entry_run (initSys 2) .needConnect rfl rfl rfl⟩)
    0 0 (.connecting 1) (.connecting 1) (by decide) (by decide)

/-- C2: the guard behaves as an atomic non-blocking check-and-set.  In
every reachable state: a trigger task that runs its entry block while the
guild is marked connecting changes nothing but its own control point,
which becomes `done skipped` (it performs no work and returns
immediately); no task is ever parked waiting on `voice_lock` (so no
dropped trigger is queued to run a second attempt sequence later); and a
finished task stays finished under every further step. -/
theorem c2_nonblocking_guard (maxA n : Nat) (s s₂ : Sys n) (t : Fin n)
    (h : Reachable maxA n s) :
    (s.connecting = true → s.tasks t = .idle → Step maxA t s s₂ →
        s₂ = { s with tasks := Function.update s.tasks t (.done .skipped) })
    ∧ s.tasks t ≠ .waiting
    ∧ (∀ (u : Fin n) (r : Res), s.tasks u = .done r → Step maxA t s s₂ →
        s₂.tasks u = .done r) := by
  obtain ⟨h1, h2, h3, h4⟩ := inv_reachable h
  refine ⟨?_, h1 t, ?_⟩
  · intro hc hidle hstep
    cases hstep with
    | entry_skip h hc2 => rfl
    | entry_run o h hc2 hl => rw [hc] at hc2; cases hc2
    | entry_wait u h hc2 hl => rw [hc] at hc2; cases hc2
    | wait_acquire o h hl => rw [hidle] at h; cases h
    | move_ok a h => rw [hidle] at h; cases h
    | move_fail a h => rw [hidle] at h; cases h
    | connect_ok a h => rw [hidle] at h; cases h
    | connect_client a h => rw [hidle] at h; cases h
    | connect_err a h => rw [hidle] at h; cases h
    | wake_giveup a h hmax => rw [hidle] at h; cases h
    | wake_retry a o h hmax => rw [hidle] at h; cases h
    | abort bs h => rw [hidle] at h; cases h
  · intro u r hu hstep
    have htu : u ≠ t := by
      intro e
      subst e
      cases hstep with
      | entry_skip h hc => rw [hu] at h; cases h
      | entry_run o h hc hl => rw [hu] at h; cases h
      | entry_wait u2 h hc hl => rw [hu] at h; cases h
      | wait_acquire o h hl => rw [hu] at h; cases h
      | move_ok a h => rw [hu] at h; cases h
      | move_fail a h => rw [hu] at h; cases h
      | connect_ok a h => rw [hu] at h; cases h
      | connect_client a h => rw [hu] at h; cases h
      | connect_err a h => rw [hu] at h; cases h
      | wake_giveup a h hmax => rw [hu] at h; cases h
      | wake_retry a o h hmax => rw [hu] at h; cases h
      | abort bs h => rw [hu] at h; cases h
    cases hstep with
    | entry_skip h hc => rw [← hu]; simp [Function.update_noteq htu]
    | entry_run o h hc hl => rw [iterSucc_tasks_ne _ _ _ _ _ htu]; exact hu
    | entry_wait u2 h hc hl => rw [← hu]; simp [Function.update_noteq htu]
    | wait_acquire o h hl => rw [iterSucc_tasks_ne _ _ _ _ _ htu]; exact hu
    | move_ok a h => rw [exitSucc_tasks_ne _ _ _ _ htu]; exact hu
    | move_fail a h => rw [← hu]; simp [Function.update_noteq htu]
    | connect_ok a h => rw [exitSucc_tasks_ne _ _ _ _ htu]; exact hu
    | connect_client a h => rw [exitSucc_tasks_ne _ _ _ _ htu]; exact hu
    | connect_err a h => rw [← hu]; simp [Function.update_noteq htu]
    | wake_giveup a h hmax => rw [exitSucc_tasks_ne _ _ _ _ htu]; exact hu
    | wake_retry a o h hmax => rw [iterSucc_tasks_ne _ _ _ _ _ htu]; exact hu
    | abort bs h => rw [exitSucc_tasks_ne _ _ _ _ htu]; exact hu

/-- Witness for C2: in the reachable state `demoSys` (guild marked
connecting by task 0), the idle task 1 collapses to `done skipped` and
changes nothing else. -/
theorem c2_nonblocking_guard_witness :
    ({ demoSys with tasks := Function.update demoSys.tasks 1 (.done .skipped) } : Sys 2)
      = { demoSys with tasks := Function.update demoSys.tasks 1 (.done .skipped) } :=
  (c2_nonblocking_guard 8 2 demoSys
      { demoSys with tasks := Function.update demoSys.tasks 1 (.done .skipped) } 1
      (Relation.ReflTransGen.single
        ⟨0, Step.entry_run (initSys 2) .needConnect rfl rfl rfl⟩)).1
    rfl (by decide) (Step.entry_skip demoSys (by decide) rfl)

/-- C6: the guard (`_connecting_guilds` membership) is held throughout
the whole attempt-plus-backoff sequence — in every reachable state, any
task suspended inside the guarded section (including every backoff sleep)
sees the guild marked connecting — and it is cleared on every exit path:
whenever the guild is marked connecting some task is still inside the
guarded section (so the scope is never left permanently marked), and any
step that takes a task from inside the guarded section to `done` —
success, not-found, give-up, `ClientException`, or abort by exception or
cancellation — leaves the guild unmarked. -/
theorem c6_guard_lifecycle (maxA n : Nat) (s s₂ : Sys n)
    (h : Reachable maxA n s) :
    (∀ (t : Fin n) (bs : BodyState), s.tasks t = .body bs → s.connecting = true)
    ∧ (s.connecting = true → ∃ (t : Fin n) (bs : BodyState), s.tasks t = .body bs)
    ∧ (∀ (t : Fin n) (bs : BodyState) (r : Res), Step maxA t s s₂ →
        s.tasks t = .body bs → s₂.tasks t = .done r → s₂.connecting = false) := by
  obtain ⟨h1, h2, h3, h4⟩ := inv_reachable h
  refine ⟨?_, ?_, ?_⟩
  · intro t bs hb
    exact (h2 t (h4 t bs hb)).1
  · intro hc
    match hl : s.lock with
    | none => rw [h3 hl] at hc; cases hc
    | some u =>
      obtain ⟨-, bs, hb⟩ := h2 u hl
      exact ⟨u, bs, hb⟩
  · intro t bs r hstep hb hdone
    cases hstep with
    | entry_skip h hc => rw [hb] at h; cases h
    | entry_run o h hc hl => rw [hb] at h; cases h
    | entry_wait u h hc hl => rw [hb] at h; cases h
    | wait_acquire o h hl => rw [hb] at h; cases h
    | move_ok a h => rfl
    | move_fail a h => simp [Function.update_same] at hdone
    | connect_ok a h => rfl
    | connect_client a h => rfl
    | connect_err a h => simp [Function.update_same] at hdone
    | wake_giveup a h hmax => rfl
    | wake_retry a o h hmax =>
      cases o with
      | notFound => rfl
      | alreadyRight => rfl
      | wrongTarget => simp [iterSucc, Function.update_same] at hdone
      | needConnect => simp [iterSucc, Function.update_same] at hdone
    | abort bs2 h => rfl

/-- Witness for C6: in the reachable state `demoSys`, task 0 is suspended
at its connect `await` and the guild is marked connecting. -/
theorem c6_guard_lifecycle_witness : demoSys.connecting = true :=
  (c6_guard_lifecycle 8 2 demoSys (initSys 2)
      (Relation.ReflTransGen.single
        ⟨0, Step.entry_run (initSys 2) .needConnect rfl rfl rfl⟩)).1
    0 (.connecting 1) (by decide)

end JennaBot
